import Mathlib

/-!
Shallow embedding of `src/pymongo_express/client.py` (class `Client`).

Documents, queries and the server's databases are modelled as association
lists with Python-dict update semantics (assignment replaces the value of an
existing key in place, otherwise appends the key at the end).  MongoDB
ObjectIds are modelled as natural numbers; a string is convertible to an
ObjectId exactly when it consists of 24 hexadecimal characters.  Python
exceptions that escape a method are modelled with `Except PyErr`; calls that
cannot raise keep a plain return type.  Log output is modelled as the list of
emitted log events (their severity, not their text), plus one event per
`find`/`find_one` issued against a collection, so that claims about "logs a
warning" and "does not issue a find" can be stated.
-/

namespace PymongoExpress

abbrev DbName := String
abbrev CollName := String

/-- BSON-ish values stored in document fields (the fragment the claims need). -/
inductive Val where
  | str (s : String)
  | num (n : Int)
  | oid (o : Nat)
  | bool (b : Bool)
deriving DecidableEq, Repr

/-- A document: a Python dict from field names to values. -/
abbrev Doc := List (String × Val)

/-- Values appearing in a query dict: a plain value, a list, or a nested
operator dict such as `\x7b"$gte": lo, "$lte": hi\x7d`. -/
inductive QVal where
  | prim (v : Val)
  | arr (l : List QVal)
  | obj (d : List (String × QVal))
deriving Repr

/-- A MongoDB query dict. -/
abbrev Query := List (String × QVal)

/-- The server: databases in listing order, each a list of named collections,
each collection its documents in natural (insertion) order. -/
abbrev Server := List (DbName × List (CollName × List Doc))

/-- An emitted effect: a log record of some severity, or a find issued
against a named collection. -/
inductive Event where
  | warn
  | info
  | debug
  | findEv (coll : CollName)
deriving DecidableEq, Repr

/-- A Python exception escaping a method. -/
inductive PyErr where
  | attributeError
  | typeError
  | invalidId
  | indexError
deriving DecidableEq, Repr

/-- A pymongo `Collection` handle: the database and collection it points at. -/
structure CollRef where
  db : DbName
  coll : CollName
deriving DecidableEq, Repr

/-- Python dict lookup `d[k]` / `d.get(k)` on an association list. -/
def dget {α : Type} : List (String × α) → String → Option α
  | [], _ => none
  | (k', v) :: rest, k => if k' = k then some v else dget rest k

/-- Python dict assignment `d[k] = v`: replace in place, else append. -/
def dset {α : Type} : List (String × α) → String → α → List (String × α)
  | [], k, v => [(k, v)]
  | (k', v') :: rest, k, v =>
      if k' = k then (k, v) :: rest else (k', v') :: dset rest k v

theorem dget_dset_self {α : Type} (d : List (String × α)) (k : String) (v : α) :
    dget (dset d k v) k = some v := by
  induction d with
  | nil => simp [dget, dset]
  | cons p rest ih =>
      by_cases h : p.1 = k
      · simp [dset, dget, h]
      · simp [dset, dget, h, ih]

theorem dget_dset_ne {α : Type} (d : List (String × α)) (k k' : String) (v : α)
    (h : k' ≠ k) : dget (dset d k v) k' = dget d k' := by
  have hks : ¬ k = k' := fun hh => h hh.symm
  induction d with
  | nil => simp [dget, dset, hks]
  | cons p rest ih =>
      by_cases hp : p.1 = k
      · simp [dset, dget, hp, hks]
      · by_cases hp' : p.1 = k'
        · simp [dset, dget, hp, hp', h]
        · simp [dset, dget, hp, hp', ih]

theorem dget_append_left {α : Type} (d d' : List (String × α)) (k : String)
    (v : α) (h : dget d k = some v) : dget (d ++ d') k = some v := by
  induction d with
  | nil => simp [dget] at h
  | cons p rest ih =>
      by_cases hp : p.1 = k
      · simpa [dget, hp] using h
      · simp [dget, hp] at h ⊢
        exact ih h

theorem dget_append_right {α : Type} (d d' : List (String × α)) (k : String)
    (h : dget d k = none) : dget (d ++ d') k = dget d' k := by
  induction d with
  | nil => simp [dget]
  | cons p rest ih =>
      by_cases hp : p.1 = k
      · simp [dget, hp] at h
      · simp [dget, hp] at h ⊢
        exact ih h

/-- Embeds `list_database_names()`. -/
def listDatabaseNames (s : Server) : List DbName := s.map Prod.fst

/-- The collections of a database handle (empty if the database is absent). -/
def getDbColls (s : Server) (n : DbName) : List (CollName × List Doc) :=
  (dget s n).getD []

/-- Embeds `db.list_collection_names()` for the database named `n`. -/
def listCollectionNames (s : Server) (n : DbName) : List CollName :=
  (getDbColls s n).map Prod.fst

/-- The documents a collection handle currently points at. -/
def getCollDocs (s : Server) (r : CollRef) : List Doc :=
  (dget (getDbColls s r.db) r.coll).getD []

/-- Hexadecimal digit test, as `bson.ObjectId` accepts for id strings. -/
def isHexChar (c : Char) : Bool :=
  c.isDigit || ('a' ≤ c && c ≤ 'f') || ('A' ≤ c && c ≤ 'F')

/-- Embeds `bson.ObjectId(s)` succeeds on a string exactly when it is a 24-character
hexadecimal encoding of a 12-byte id. -/
def isValidOidStr (s : String) : Bool :=
  s.length == 24 && s.data.all isHexChar

def hexCharVal (c : Char) : Nat :=
  if c.isDigit then c.toNat - 48
  else if 'a' ≤ c && c ≤ 'f' then c.toNat - 87
  else c.toNat - 55

/-- The numeric value of a hex id string. -/
def hexToNat (s : String) : Nat :=
  s.data.foldl (fun a c => 16 * a + hexCharVal c) 0

/-- Embeds `bson.ObjectId(s)` for a string argument: the id, or an exception. -/
def objectIdOfString (s : String) : Option Nat :=
  if isValidOidStr s then some (hexToNat s) else none

/-- Embeds `database_exists` (client.py line 28). -/
def database_exists (s : Server) (databaseName : DbName) : Bool :=
  decide (databaseName ∈ listDatabaseNames s)

/-- Embeds `get_database_by_name` (client.py line 40): the database handle if it
exists, else `None` after a warning. -/
def get_database_by_name (s : Server) (databaseName : DbName) :
    Option DbName × List Event :=
  if database_exists s databaseName then (some databaseName, [])
  else (none, [Event.warn])

/-- The scan of `collection_exists` over a list of databases. -/
def existsInDbs (s : Server) (collectionName : CollName) : List DbName → Bool
  | [] => false
  | n :: rest =>
      if collectionName ∈ listCollectionNames s n then true
      else existsInDbs s collectionName rest

/-- Embeds `collection_exists` (client.py line 59): with no database name it scans
every database on the server; with one it checks that database only. -/
def collection_exists (s : Server) (collectionName : CollName)
    (databaseName : Option DbName) : Bool × List Event :=
  match databaseName with
  | none =>
      if existsInDbs s collectionName (listDatabaseNames s)
      then (true, [Event.debug]) else (false, [])
  | some dbn =>
      match get_database_by_name s dbn with
      | (some db, ev) =>
          if collectionName ∈ listCollectionNames s db
          then (true, ev ++ [Event.debug])
          else (false, ev ++ [Event.warn])
      | (none, ev) => (false, ev ++ [Event.warn])

/-- The databases `get_collection_by_name` skips in its all-databases scan
(client.py line 116). -/
def excludedDbNames : List DbName := ["config", "local"]

/-- The scan of `get_collection_by_name` over its candidate databases. -/
def findCollInDbs (s : Server) (collectionName : CollName) :
    List DbName → Option CollRef
  | [] => none
  | n :: rest =>
      if collectionName ∈ listCollectionNames s n then some ⟨n, collectionName⟩
      else findCollInDbs s collectionName rest

/-- Embeds `db_names = [name for name in db_names if name not in ["config", "local"]]`
(client.py line 116). -/
def searchDbNames (s : Server) : List DbName :=
  (listDatabaseNames s).filter (fun n => decide (n ∉ excludedDbNames))

/-- Embeds `get_collection_by_name` (client.py line 105): with a database name, look
only there; otherwise scan every database except `config` and `local`. -/
def get_collection_by_name (s : Server) (collectionName : CollName)
    (databaseName : Option DbName) : Option CollRef × List Event :=
  let dbsEv : List DbName × List Event :=
    match databaseName with
    | some dbn =>
        match get_database_by_name s dbn with
        | (some db, ev) => ([db], ev)
        | (none, ev) => ([], ev)
    | none => (searchDbNames s, [])
  match findCollInDbs s collectionName dbsEv.1 with
  | some ref => (some ref, dbsEv.2 ++ [Event.debug])
  | none => (none, dbsEv.2 ++ [Event.warn])

/-- Embeds `find_one(\x7b"_id": idv\x7d)`: first document in natural order whose
`_id` equals `idv`. -/
def find_one_by_id (docs : List Doc) (idv : Val) : Option Doc :=
  docs.find? (fun d => dget d "_id" == some idv)

/-- Embeds `get_entry_by_id` (client.py line 136): resolve the collection, convert a
string id with `bson.ObjectId`, then `find_one` on the `_id`. -/
def get_entry_by_id (s : Server) (_id : Val) (collectionName : Option CollName)
    (databaseName : Option DbName) : Option Doc × List Event :=
  match collectionName with
  | none => (none, [Event.warn])
  | some cn =>
      match get_collection_by_name s cn databaseName with
      | (none, ev) => (none, ev ++ [Event.warn])
      | (some ref, ev) =>
          let conv : Option Val :=
            match _id with
            | .str strId => (objectIdOfString strId).map Val.oid
            | v => some v
          match conv with
          | none => (none, ev ++ [Event.warn])
          | some idv =>
              match find_one_by_id (getCollDocs s ref) idv with
              | none => (none, ev ++ [Event.findEv ref.coll, Event.info])
              | some d => (some d, ev ++ [Event.findEv ref.coll])

/-- BSON `≤` on values of equal type, as used by `$gte`/`$lte`. -/
def valLe (a b : Val) : Bool :=
  match a, b with
  | .num x, .num y => decide (x ≤ y)
  | .oid x, .oid y => decide (x ≤ y)
  | _, _ => false

/-- Whether a query value is the plain value `v`. -/
def qvalEqVal (x : QVal) (v : Val) : Bool :=
  match x with
  | .prim w => w == v
  | _ => false

/-- One query operator applied to the (possibly absent) value of a field. -/
def evalOp (field : Option Val) (op : String) (arg : QVal) : Bool :=
  if op = "$gte" then
    match field, arg with
    | some fv, .prim v => valLe v fv
    | _, _ => false
  else if op = "$lte" then
    match field, arg with
    | some fv, .prim v => valLe fv v
    | _, _ => false
  else if op = "$in" then
    match field, arg with
    | some fv, .arr l => l.any (fun x => qvalEqVal x fv)
    | _, _ => false
  else if op = "$exists" then
    match arg with
    | .prim (.bool b) => field.isSome == b
    | _ => false
  else false

/-- Whether a document matches a query dict (conjunction over its keys). -/
def docMatches (d : Doc) (q : Query) : Bool :=
  q.all fun kv =>
    match kv.2 with
    | .prim v => dget d kv.1 == some v
    | .obj ops => ops.all fun o => evalOp (dget d kv.1) o.1 o.2
    | .arr _ => false

/-- Embeds `collection.find(query)`: all matching documents in natural order. -/
def findDocs (docs : List Doc) (q : Query) : List Doc :=
  docs.filter (fun d => docMatches d q)

/-- The attributes of the `Client` class body (client.py): its methods and the
instance attributes set in `__init__`.  Python resolves `self.name` against
these; any other name raises `AttributeError`. -/
def clientAttrNames : List String :=
  ["logger", "_client",
   "database_exists", "get_database_by_name", "collection_exists",
   "get_collection_by_name", "get_entry_by_id", "match_entry",
   "create_entry", "delete_entry_by_id", "delete_collection",
   "update_entry", "create_or_update_entry", "get_all_ids_in_collection",
   "get_most_recent_entry", "query_get_entries_by_ids",
   "query_get_entries_where_key_exists",
   "query_get_entries_where_key_not_exists",
   "query_get_entries_with_value", "query_get_entries_with_value_range"]

/-- Python attribute lookup `self.n` on a `Client` instance. -/
def clientHasAttr (n : String) : Bool := clientAttrNames.contains n

/-- Embeds `query_get_entries_with_value` (client.py line 411): value-equality
fragment; a fresh dict is created when `query` is `None`. -/
def query_get_entries_with_value (key : String) (value : Val)
    (query : Option Query) : Query :=
  dset (query.getD []) key (.prim value)

/-- The loop of `match_entry` over the key-value pairs: each iteration calls
`self._get_entries_with_value(key, value, query=query)`, an attribute the
`Client` class does not define. -/
def matchEntryLoop : List (String × Val) → Query → Except PyErr Query
  | [], query => .ok query
  | (key, value) :: rest, query =>
      if clientHasAttr "_get_entries_with_value" then
        matchEntryLoop rest (query_get_entries_with_value key value (some query))
      else .error .attributeError

/-- Embeds `match_entry` (client.py line 177): resolve the collection, fold the
key-value pairs into an equality query, `find`, and return the result list;
`None` when the collection is not found. -/
def match_entry (s : Server) (database_name : DbName)
    (collection_name : CollName) (key_values : List (String × Val)) :
    Except PyErr (Option (List Doc)) :=
  match get_collection_by_name s collection_name (some database_name) with
  | (some ref, _) =>
      match matchEntryLoop key_values [] with
      | .ok q => .ok (some (findDocs (getCollDocs s ref) q))
      | .error e => .error e
  | (none, _) => .ok none

/-- Insert a document at the end of a collection, creating the collection if
absent (MongoDB implicit creation). -/
def collInsert : List (CollName × List Doc) → CollName → Doc →
    List (CollName × List Doc)
  | [], cn, d => [(cn, [d])]
  | (c, docs) :: rest, cn, d =>
      if c = cn then (c, docs ++ [d]) :: rest
      else (c, docs) :: collInsert rest cn d

/-- Insert a document, creating database and collection if absent. -/
def serverInsert : Server → DbName → CollName → Doc → Server
  | [], dbn, cn, d => [(dbn, [(cn, [d])])]
  | (n, colls) :: rest, dbn, cn, d =>
      if n = dbn then (n, collInsert colls cn d) :: rest
      else (n, colls) :: serverInsert rest dbn cn d

/-- Embeds `insert_one`: pymongo adds a generated `_id` to the document only when the
data has none (new keys append at the end of a Python dict). -/
def insertOneDoc (data : Doc) (newId : Nat) : Doc :=
  if (dget data "_id").isSome then data else data ++ [("_id", Val.oid newId)]

/-- The `inserted_id` reported by `insert_one`. -/
def insertedIdOf (data : Doc) (newId : Nat) : Val :=
  (dget data "_id").getD (Val.oid newId)

/-- Embeds `create_entry` (client.py line 193): index straight into the database and
collection (implicitly creating them) and `insert_one`; `newId` is the
ObjectId the driver generates for a document without `_id`. -/
def create_entry (s : Server) (data : Doc) (collection_name : CollName)
    (database_name : DbName) (newId : Nat) : (Val × CollRef) × Server :=
  ((insertedIdOf data newId, ⟨database_name, collection_name⟩),
   serverInsert s database_name collection_name (insertOneDoc data newId))

/-- Embeds `delete_one(\x7b"_id": id\x7d)`: remove the first match, report the count. -/
def deleteFirstById : List Doc → Val → List Doc × Nat
  | [], _ => ([], 0)
  | d :: rest, idv =>
      if dget d "_id" == some idv then (rest, 1)
      else
        let p := deleteFirstById rest idv
        (d :: p.1, p.2)

/-- Overwrite the documents of one collection of one database. -/
def serverSetColl (s : Server) (dbn : DbName) (cn : CollName)
    (docs : List Doc) : Server :=
  s.map fun p =>
    if p.1 = dbn then
      (p.1, p.2.map fun q => if q.1 = cn then (q.1, docs) else q)
    else p

/-- Embeds `delete_entry_by_id` (client.py line 204): resolve the collection, then
`delete_one` on the raw id; `False` plus a warning when nothing was found. -/
def delete_entry_by_id (s : Server) (id : Val) (collection_name : CollName)
    (database_name : Option DbName) : (Bool × Server) × List Event :=
  match get_collection_by_name s collection_name database_name with
  | (none, ev) => ((false, s), ev ++ [Event.warn])
  | (some ref, ev) =>
      let p := deleteFirstById (getCollDocs s ref) id
      if p.2 > 0 then
        ((true, serverSetColl s ref.db ref.coll p.1), ev ++ [Event.info])
      else ((false, s), ev ++ [Event.warn])

/-- Embeds `collection.drop()`: remove the named collection from its
database. -/
def serverDropColl (s : Server) (dbn : DbName) (cn : CollName) : Server :=
  s.map fun p =>
    if p.1 = dbn then (p.1, p.2.filter (fun q => decide (¬ q.1 = cn)))
    else p

/-- Embeds `delete_collection` (client.py line 226): resolve the collection
(`False` plus a warning when that fails), drop it, then re-resolve to check
the drop took effect. -/
def delete_collection (s : Server) (collection_name : CollName)
    (database_name : Option DbName) : (Bool × Server) × List Event :=
  match get_collection_by_name s collection_name database_name with
  | (none, ev) => ((false, s), ev ++ [Event.warn])
  | (some ref, ev) =>
      let s' := serverDropColl s ref.db ref.coll
      match get_collection_by_name s' collection_name database_name with
      | (some _, ev2) => ((false, s'), ev ++ ev2 ++ [Event.warn])
      | (none, ev2) => ((true, s'), ev ++ ev2 ++ [Event.info])

/-- The `_id` of a document, when it is an ObjectId. -/
def docIdN (d : Doc) : Option Nat :=
  match dget d "_id" with
  | some (.oid n) => some n
  | _ => none

/-- Sort key used by `sort=[("_id", -1)]` (absent ids sort lowest). -/
def idKey (d : Doc) : Nat := (docIdN d).getD 0

/-- Embeds `find_one(sort=[("_id", -1)])`: the document with the largest `_id`. -/
def maxIdDoc : List Doc → Option Doc
  | [] => none
  | d :: rest =>
      match maxIdDoc rest with
      | none => some d
      | some d' => if idKey d < idKey d' then some d' else some d

/-- Embeds `get_most_recent_entry` (client.py line 317): resolve the collection and
take the document with the largest `_id`; `None` plus a warning if the
collection is missing or empty. -/
def get_most_recent_entry (s : Server) (collectionName : CollName)
    (databaseName : Option DbName) : Option Doc × List Event :=
  match get_collection_by_name s collectionName databaseName with
  | (none, ev) => (none, ev ++ [Event.warn])
  | (some ref, ev) =>
      match maxIdDoc (getCollDocs s ref) with
      | none => (none, ev ++ [Event.warn])
      | some d => (some d, ev ++ [Event.info])

/-- Embeds `$set` of all fields of `data` into a matched document. -/
def docUpdate (d : Doc) (data : Doc) : Doc :=
  data.foldl (fun acc kv => dset acc kv.1 kv.2) d

/-- Embeds `update_one(\x7b"_id": idv\x7d, \x7b"$set": data\x7d)`: update the first
matching document; the flag reports whether a match was found. -/
def updateFirstById : List Doc → Val → Doc → List Doc × Bool
  | [], _, _ => ([], false)
  | d :: rest, idv, data =>
      if dget d "_id" == some idv then (docUpdate d data :: rest, true)
      else
        let p := updateFirstById rest idv data
        (d :: p.1, p.2)

/-- Embeds `create_or_update_entry` (client.py line 277): without `"_id"` in the data
delegate to `create_entry`; with it, `update_one(..., upsert=True)` and return
the driver's `upserted_id` (which is `None` when a document was matched). -/
def create_or_update_entry (s : Server) (data : Doc)
    (collection_name : CollName) (database_name : DbName) (newId : Nat) :
    (Option Val × CollRef) × Server :=
  let ref : CollRef := ⟨database_name, collection_name⟩
  match dget data "_id" with
  | none =>
      let r := create_entry s data collection_name database_name newId
      ((some r.1.1, ref), r.2)
  | some idv =>
      let p := updateFirstById (getCollDocs s ref) idv data
      if p.2 then ((none, ref), serverSetColl s database_name collection_name p.1)
      else ((some idv, ref), serverInsert s database_name collection_name data)

/-- The conversion loop of `query_get_entries_by_ids`: strings go through
`bson.ObjectId` (which rejects non-hex strings), ObjectIds pass through, and
any other type raises `TypeError`. -/
def convertIds : List Val → Except PyErr (List Nat)
  | [] => .ok []
  | v :: rest =>
      match v with
      | .str s =>
          match objectIdOfString s with
          | some n => (convertIds rest).map (fun l => n :: l)
          | none => .error .invalidId
      | .oid n => (convertIds rest).map (fun l => n :: l)
      | _ => .error .typeError

/-- Embeds `query_get_entries_by_ids` (client.py line 347): convert the ids, then
assign `query["_id"]`; there is no `query is None` guard, so the default
`None` raises `TypeError` at that assignment. -/
def query_get_entries_by_ids (ids : List Val) (query : Option Query) :
    Except PyErr Query :=
  match convertIds ids with
  | .error e => .error e
  | .ok object_ids =>
      match query with
      | none => .error .typeError
      | some q =>
          .ok (dset q "_id"
            (.obj [("$in", .arr (object_ids.map (fun n => QVal.prim (Val.oid n))))]))

/-- Embeds `query.setdefault(key, \x7b\x7d)` followed by
`query[key]["$exists"] = b`; subscripting a non-dict value raises. -/
def setExistsFlag (q : Query) (key : String) (b : Bool) : Except PyErr Query :=
  let q1 : Query := match dget q key with
    | none => dset q key (.obj [])
    | some _ => q
  match dget q1 key with
  | some (QVal.obj d) =>
      .ok (dset q1 key (.obj (dset d "$exists" (.prim (.bool b)))))
  | _ => .error .typeError

/-- Embeds `query_get_entries_where_key_exists` (client.py line 379). -/
def query_get_entries_where_key_exists (key : String) (query : Option Query) :
    Except PyErr Query :=
  setExistsFlag (query.getD []) key true

/-- Embeds `query_get_entries_where_key_not_exists` (client.py line 394). -/
def query_get_entries_where_key_not_exists (key : String)
    (query : Option Query) : Except PyErr Query :=
  setExistsFlag (query.getD []) key false

/-- Embeds `query_get_entries_with_value_range` (client.py line 428): a fresh dict is
created when `query` is `None`; `value[0]`/`value[1]` raise `IndexError` on a
list shorter than two. -/
def query_get_entries_with_value_range (key : String) (value : List Val)
    (query : Option Query) : Except PyErr Query :=
  let q := query.getD []
  match value with
  | v0 :: v1 :: _ =>
      .ok (dset q key (.obj [("$gte", .prim v0), ("$lte", .prim v1)]))
  | _ => .error .indexError

/-! ### Helper lemmas about the scans and the server mutators -/

theorem dget_some_mem {α : Type} (l : List (String × α)) (k : String) (v : α)
    (h : dget l k = some v) : k ∈ l.map Prod.fst := by
  induction l with
  | nil => simp [dget] at h
  | cons p rest ih =>
      by_cases hp : p.1 = k
      · simp [hp]
      · simp [dget, hp] at h
        simp [ih h]

theorem findCollInDbs_eq_none_iff (s : Server) (cn : CollName)
    (L : List DbName) :
    findCollInDbs s cn L = none ↔ ∀ n ∈ L, cn ∉ listCollectionNames s n := by
  induction L with
  | nil => simp [findCollInDbs]
  | cons n rest ih =>
      by_cases hn : cn ∈ listCollectionNames s n
      · simp [findCollInDbs, hn]
      · simp [findCollInDbs, hn, ih]

theorem findCollInDbs_some (s : Server) (cn : CollName) (L : List DbName)
    (ref : CollRef) (h : findCollInDbs s cn L = some ref) :
    ref.coll = cn ∧ ref.db ∈ L ∧ cn ∈ listCollectionNames s ref.db := by
  induction L with
  | nil => simp [findCollInDbs] at h
  | cons n rest ih =>
      by_cases hn : cn ∈ listCollectionNames s n
      · simp [findCollInDbs, hn] at h
        subst h
        exact ⟨rfl, by simp, hn⟩
      · simp [findCollInDbs, hn] at h
        obtain ⟨h1, h2, h3⟩ := ih h
        exact ⟨h1, by simp [h2], h3⟩

theorem existsInDbs_iff (s : Server) (cn : CollName) (L : List DbName) :
    existsInDbs s cn L = true ↔ ∃ n ∈ L, cn ∈ listCollectionNames s n := by
  induction L with
  | nil => simp [existsInDbs]
  | cons n rest ih =>
      by_cases hn : cn ∈ listCollectionNames s n
      · simp [existsInDbs, hn]
      · simp [existsInDbs, hn, ih]

theorem gcbn_events (s : Server) (cn : CollName) (odb : Option DbName) :
    ∀ e ∈ (get_collection_by_name s cn odb).2, e = Event.warn ∨ e = Event.debug := by
  intro e he
  cases odb with
  | none =>
      rw [get_collection_by_name] at he
      split at he <;> simp at he <;> simp [he]
  | some dbn =>
      rw [get_collection_by_name] at he
      by_cases hdb : database_exists s dbn = true <;>
        simp only [get_database_by_name, hdb, if_true, if_false,
          Bool.false_eq_true] at he <;>
      · split at he <;> simp at he <;> simp [he]

theorem gcbn_some_found (s : Server) (cn : CollName) (dbn : DbName)
    (hdb : database_exists s dbn = true)
    (hcn : cn ∈ listCollectionNames s dbn) :
    (get_collection_by_name s cn (some dbn)).1 = some ⟨dbn, cn⟩ := by
  rw [get_collection_by_name]
  simp [get_database_by_name, hdb, findCollInDbs, hcn]

theorem maxIdDoc_mem (l : List Doc) (d : Doc) (h : maxIdDoc l = some d) :
    d ∈ l := by
  induction l generalizing d with
  | nil => simp [maxIdDoc] at h
  | cons x rest ih =>
      rw [maxIdDoc] at h
      rcases hm : maxIdDoc rest with _ | d'
      · rw [hm] at h
        simp at h
        simp [h]
      · rw [hm] at h
        by_cases hlt : idKey x < idKey d'
        · simp [hlt] at h
          subst h
          simp [ih _ hm]
        · simp [hlt] at h
          simp [h]

theorem maxIdDoc_isSome (l : List Doc) (h : l ≠ []) :
    ∃ d, maxIdDoc l = some d := by
  cases l with
  | nil => exact absurd rfl h
  | cons x rest =>
      rw [maxIdDoc]
      rcases hm : maxIdDoc rest with _ | d'
      · exact ⟨x, rfl⟩
      · by_cases hlt : idKey x < idKey d'
        · exact ⟨d', by simp [hlt]⟩
        · exact ⟨x, by simp [hlt]⟩

theorem maxIdDoc_max (l : List Doc) (d : Doc) (h : maxIdDoc l = some d) :
    ∀ d' ∈ l, idKey d' ≤ idKey d := by
  induction l generalizing d with
  | nil => simp [maxIdDoc] at h
  | cons x rest ih =>
      intro d' hd'
      rw [maxIdDoc] at h
      rcases hm : maxIdDoc rest with _ | dm
      · rw [hm] at h
        simp at h
        subst h
        have hrest : rest = [] := by
          cases rest with
          | nil => rfl
          | cons y ys =>
              obtain ⟨z, hz⟩ := maxIdDoc_isSome (y :: ys) (by simp)
              rw [hz] at hm
              exact Option.noConfusion hm
        subst hrest
        rcases List.mem_cons.mp hd' with h1 | h1
        · simp [h1]
        · simp at h1
      · rw [hm] at h
        by_cases hlt : idKey x < idKey dm
        · simp [hlt] at h
          subst h
          rcases List.mem_cons.mp hd' with h1 | h1
          · exact le_of_lt (h1 ▸ hlt)
          · exact ih _ hm _ h1
        · simp [hlt] at h
          subst h
          rcases List.mem_cons.mp hd' with h1 | h1
          · simp [h1]
          · exact le_trans (ih _ hm _ h1) (le_of_not_lt hlt)

theorem find_one_append_fresh (docs : List Doc) (d : Doc) (idv : Val)
    (hfresh : ∀ d' ∈ docs, ¬ dget d' "_id" = some idv)
    (hd : dget d "_id" = some idv) :
    find_one_by_id (docs ++ [d]) idv = some d := by
  induction docs with
  | nil => simp [find_one_by_id, List.find?, hd]
  | cons x rest ih =>
      have hx : ¬ dget x "_id" = some idv := hfresh x (by simp)
      simp only [find_one_by_id, List.cons_append, List.find?]
      rw [show (dget x "_id" == some idv) = false by simp [hx]]
      exact ih (fun d' hd' => hfresh d' (by simp [hd']))

theorem collInsert_dget (colls : List (CollName × List Doc)) (cn : CollName)
    (d : Doc) :
    dget (collInsert colls cn d) cn = some (((dget colls cn).getD []) ++ [d]) := by
  induction colls with
  | nil =>
      show dget [(cn, [d])] cn = _
      simp [dget]
  | cons p rest ih =>
      by_cases hp : p.1 = cn
      · simp [collInsert, dget, hp]
      · simp [collInsert, dget, hp, ih]

theorem serverInsert_getDbColls (s : Server) (dbn : DbName) (cn : CollName)
    (d : Doc) :
    getDbColls (serverInsert s dbn cn d) dbn = collInsert (getDbColls s dbn) cn d := by
  induction s with
  | nil => simp [serverInsert, getDbColls, dget, collInsert]
  | cons p rest ih =>
      by_cases hp : p.1 = dbn
      · simp [serverInsert, getDbColls, dget, hp]
      · simp [serverInsert, getDbColls, dget, hp] at ih ⊢
        exact ih

theorem getCollDocs_serverInsert (s : Server) (dbn : DbName) (cn : CollName)
    (d : Doc) :
    getCollDocs (serverInsert s dbn cn d) ⟨dbn, cn⟩
      = getCollDocs s ⟨dbn, cn⟩ ++ [d] := by
  simp [getCollDocs, serverInsert_getDbColls, collInsert_dget]

theorem serverInsert_db_exists (s : Server) (dbn : DbName) (cn : CollName)
    (d : Doc) : database_exists (serverInsert s dbn cn d) dbn = true := by
  induction s with
  | nil => simp [serverInsert, database_exists, listDatabaseNames]
  | cons p rest ih =>
      by_cases hp : p.1 = dbn
      · simp [serverInsert, database_exists, listDatabaseNames, hp]
      · simp [serverInsert, database_exists, listDatabaseNames, hp] at ih ⊢
        simp [ih]

theorem serverInsert_coll_mem (s : Server) (dbn : DbName) (cn : CollName)
    (d : Doc) : cn ∈ listCollectionNames (serverInsert s dbn cn d) dbn := by
  have h := collInsert_dget (getDbColls s dbn) cn d
  have := dget_some_mem _ _ _ ((serverInsert_getDbColls s dbn cn d) ▸ h)
  simpa [listCollectionNames] using this

theorem convertIds_ok (ids : List Val)
    (h : ∀ v ∈ ids, (∃ t, v = Val.str t ∧ isValidOidStr t = true) ∨ ∃ n, v = Val.oid n) :
    ∃ l, convertIds ids = .ok l := by
  induction ids with
  | nil => exact ⟨[], rfl⟩
  | cons v rest ih =>
      obtain ⟨l, hl⟩ := ih (fun w hw => h w (by simp [hw]))
      rcases h v (by simp) with ⟨t, ht, hvalid⟩ | ⟨n, hn⟩
      · subst ht
        exact ⟨hexToNat t :: l, by simp [convertIds, objectIdOfString, hvalid, hl, Except.map]⟩
      · subst hn
        exact ⟨n :: l, by simp [convertIds, hl, Except.map]⟩

theorem updateFirstById_flag (docs : List Doc) (idv : Val) (data : Doc) :
    (updateFirstById docs idv data).2 = true ↔
      ∃ d ∈ docs, dget d "_id" = some idv := by
  induction docs with
  | nil => simp [updateFirstById]
  | cons x rest ih =>
      by_cases hx : dget x "_id" = some idv
      · simp [updateFirstById, hx]
      · simp only [updateFirstById]
        rw [show (dget x "_id" == some idv) = false by simp [hx]]
        simp [ih, hx]

theorem mem_searchDbNames (s : Server) (n : DbName) :
    n ∈ searchDbNames s ↔ n ∈ listDatabaseNames s ∧ n ∉ excludedDbNames := by
  simp [searchDbNames]

theorem gcbn_none_fst (s : Server) (cn : CollName) :
    (get_collection_by_name s cn none).1 = findCollInDbs s cn (searchDbNames s) := by
  rw [get_collection_by_name]
  rcases hf : findCollInDbs s cn (searchDbNames s) with _ | ref <;> simp [hf]

theorem gcbn_none_eq_none_iff (s : Server) (cn : CollName) :
    (get_collection_by_name s cn none).1 = none ↔
      ∀ n ∈ listDatabaseNames s, n ∉ excludedDbNames → cn ∉ listCollectionNames s n := by
  rw [gcbn_none_fst, findCollInDbs_eq_none_iff]
  constructor
  · intro h n hn hne
    exact h n ((mem_searchDbNames s n).mpr ⟨hn, hne⟩)
  · intro h n hn
    obtain ⟨h1, h2⟩ := (mem_searchDbNames s n).mp hn
    exact h n h1 h2

theorem gcbn_none_some (s : Server) (cn : CollName) (ref : CollRef)
    (h : (get_collection_by_name s cn none).1 = some ref) :
    ref.coll = cn ∧ ref.db ∈ listDatabaseNames s ∧ ref.db ∉ excludedDbNames
      ∧ cn ∈ listCollectionNames s ref.db := by
  rw [gcbn_none_fst] at h
  obtain ⟨h1, h2, h3⟩ := findCollInDbs_some s cn _ ref h
  obtain ⟨h4, h5⟩ := (mem_searchDbNames s ref.db).mp h2
  exact ⟨h1, h4, h5, h3⟩

/-- Shared core of C2 and C5: a string id rejected by `bson.ObjectId` makes
`get_entry_by_id` return `None` with a warning and without issuing a find. -/
theorem get_entry_invalid_id_aux (s : Server) (cn : CollName)
    (odb : Option DbName) (sid : String) (h : isValidOidStr sid = false) :
    (get_entry_by_id s (.str sid) (some cn) odb).1 = none
    ∧ Event.warn ∈ (get_entry_by_id s (.str sid) (some cn) odb).2
    ∧ ∀ c, Event.findEv c ∉ (get_entry_by_id s (.str sid) (some cn) odb).2 := by
  have hev := gcbn_events s cn odb
  rcases hp : get_collection_by_name s cn odb with ⟨r, ev⟩
  rw [hp] at hev
  have hnf : ∀ c, Event.findEv c ∉ ev ++ [Event.warn] := by
    intro c hc
    rcases List.mem_append.mp hc with hc | hc
    · rcases hev _ hc with h' | h' <;> exact Event.noConfusion h'
    · simp at hc
  cases r with
  | none =>
      simp only [get_entry_by_id, hp]
      refine ⟨by simp, by simp, ?_⟩
      simpa using hnf
  | some ref =>
      simp only [get_entry_by_id, hp, objectIdOfString, h, Bool.false_eq_true,
        if_false, Option.map_none]
      refine ⟨by simp, by simp, ?_⟩
      simpa using hnf

theorem gcbn_none_warn (s : Server) (cn : CollName) (odb : Option DbName)
    (h : (get_collection_by_name s cn odb).1 = none) :
    Event.warn ∈ (get_collection_by_name s cn odb).2 := by
  cases odb with
  | none =>
      rw [get_collection_by_name] at h ⊢
      rcases hf : findCollInDbs s cn (searchDbNames s) with _ | ref
      · simp [hf]
      · simp [hf] at h
  | some dbn =>
      rw [get_collection_by_name] at h ⊢
      by_cases hdb : database_exists s dbn = true
      · rcases hf : findCollInDbs s cn [dbn] with _ | ref
        · simp [get_database_by_name, hdb, hf]
        · simp [get_database_by_name, hdb, hf] at h
      · simp [get_database_by_name, hdb, findCollInDbs]

theorem gcbn_some_no_warn (s : Server) (cn : CollName) (odb : Option DbName)
    (ref : CollRef) (h : (get_collection_by_name s cn odb).1 = some ref) :
    Event.warn ∉ (get_collection_by_name s cn odb).2 := by
  cases odb with
  | none =>
      rw [get_collection_by_name] at h ⊢
      rcases hf : findCollInDbs s cn (searchDbNames s) with _ | ref'
      · simp [hf] at h
      · simp [hf]
  | some dbn =>
      rw [get_collection_by_name] at h ⊢
      by_cases hdb : database_exists s dbn = true
      · rcases hf : findCollInDbs s cn [dbn] with _ | ref'
        · simp [get_database_by_name, hdb, hf] at h
        · simp [get_database_by_name, hdb, hf]
      · simp [get_database_by_name, hdb, findCollInDbs] at h

theorem find_one_by_id_none (docs : List Doc) (idv : Val)
    (h : ∀ d ∈ docs, ¬ dget d "_id" = some idv) :
    find_one_by_id docs idv = none := by
  induction docs with
  | nil => rfl
  | cons x rest ih =>
      simp only [find_one_by_id, List.find?]
      rw [show (dget x "_id" == some idv) = false by simp [h x (by simp)]]
      exact ih fun d hd => h d (by simp [hd])

theorem deleteFirstById_count_zero (docs : List Doc) (idv : Val)
    (h : ∀ d ∈ docs, ¬ dget d "_id" = some idv) :
    (deleteFirstById docs idv).2 = 0 := by
  induction docs with
  | nil => rfl
  | cons x rest ih =>
      simp only [deleteFirstById]
      rw [show (dget x "_id" == some idv) = false by simp [h x (by simp)]]
      simp only [Bool.false_eq_true, if_false]
      exact ih fun d hd => h d (by simp [hd])

/-- Shared core of C2: a `find_one` that matches nothing makes
`get_entry_by_id` return `None` after an info record (no conversion happens
for a non-string id). -/
theorem get_entry_not_found_aux (s : Server) (cn : CollName)
    (odb : Option DbName) (idv : Val) (ref : CollRef) (ev : List Event)
    (hp : get_collection_by_name s cn odb = (some ref, ev))
    (hns : ∀ t, idv ≠ Val.str t)
    (hnf : find_one_by_id (getCollDocs s ref) idv = none) :
    get_entry_by_id s idv (some cn) odb
      = (none, ev ++ [Event.findEv ref.coll, Event.info]) := by
  cases idv with
  | str t => exact absurd rfl (hns t)
  | num n => simp [get_entry_by_id, hp, hnf]
  | oid n => simp [get_entry_by_id, hp, hnf]
  | bool b => simp [get_entry_by_id, hp, hnf]

/-- The server state of the repository's own test `test_client`, after the
insert of its example document. -/
def sTest : Server :=
  [("myTestDatabase", [("myTestCollection", [[("name", Val.str "test")]])])]

/-- C1: `match_entry` cannot build its value-equality filter: the `Client`
class defines `query_get_entries_with_value` but `match_entry` calls
`self._get_entries_with_value`, an attribute the class does not have, so any
nonempty key-value mapping on a resolvable collection raises
`AttributeError` instead of returning the matching documents (the repo's own
test calls `match_entry` with a two-key mapping and asserts a result list). -/
theorem match_entry_raises_attribute_error :
    clientHasAttr "_get_entries_with_value" = false
    ∧ (get_collection_by_name sTest "myTestCollection" (some "myTestDatabase")).1
      = some ⟨"myTestDatabase", "myTestCollection"⟩
    ∧ match_entry sTest "myTestDatabase" "myTestCollection"
        [("name", Val.str "test")] = .error .attributeError :=
  ⟨by decide, rfl, rfl⟩

/-- A small server used by the C2 and C5 scenarios: one regular database
`d1` holding one collection `c1` with one document. -/
def sW : Server := [("d1", [("c1", [[("_id", Val.oid 1)]])])]

/-- C2 counterexample: three public operations at concrete inputs contradict
"every failure is reported by logging a warning and returning an empty
result, never by raising": `query_get_entries_by_ids` with its default
`query=None` raises `TypeError`; `collection_exists` with no database name
returns `False` with no log record at all when the collection exists
nowhere; and `get_entry_by_id` on a resolvable collection whose entry is
missing logs an info record, not a warning. -/
theorem failure_reporting_counterexample :
    query_get_entries_by_ids [] none = .error .typeError
    ∧ collection_exists sW "nowhere" none = (false, [])
    ∧ get_entry_by_id sW (Val.oid 2) (some "c1") (some "d1")
      = (none, [Event.debug, Event.findEv "c1", Event.info]) :=
  ⟨rfl, rfl, rfl⟩

/-- C2 (amended): the lookup and delete operations — `get_database_by_name`,
`get_collection_by_name`, `get_entry_by_id`, `delete_entry_by_id`,
`delete_collection`, `get_most_recent_entry`, and `collection_exists` when a
database name is given — report their failures (database missing, collection
missing, invalid identifier, entry to delete not found, empty collection) by
logging a warning and returning an empty result (`None` or `False`), never by
raising.  The exceptions: `collection_exists` with no database name returns
`False` without logging when the collection exists nowhere; `get_entry_by_id`
on a resolvable collection logs only an info record when no entry has the id;
and `query_get_entries_by_ids` raises `TypeError` at its default `query=None`
(and `match_entry` raises `AttributeError` on any nonempty mapping, the C1
defect) instead of logging and returning empty. -/
theorem failing_ops_warn_and_return_empty (s : Server) (dbn : DbName)
    (cn : CollName) (odb : Option DbName) (sid : String) (idv : Val) :
    (database_exists s dbn = false →
      get_database_by_name s dbn = (none, [Event.warn]))
    ∧ ((get_collection_by_name s cn odb).1 = none →
        Event.warn ∈ (get_collection_by_name s cn odb).2)
    ∧ ((get_collection_by_name s cn odb).1 = none →
        (get_entry_by_id s idv (some cn) odb).1 = none
        ∧ Event.warn ∈ (get_entry_by_id s idv (some cn) odb).2)
    ∧ (isValidOidStr sid = false →
        (get_entry_by_id s (.str sid) (some cn) odb).1 = none
        ∧ Event.warn ∈ (get_entry_by_id s (.str sid) (some cn) odb).2)
    ∧ (∀ ref, (get_collection_by_name s cn odb).1 = some ref →
        (∀ t, idv ≠ Val.str t) →
        (∀ d ∈ getCollDocs s ref, ¬ dget d "_id" = some idv) →
        (get_entry_by_id s idv (some cn) odb).1 = none
        ∧ Event.info ∈ (get_entry_by_id s idv (some cn) odb).2
        ∧ Event.warn ∉ (get_entry_by_id s idv (some cn) odb).2)
    ∧ ((get_collection_by_name s cn odb).1 = none →
        (delete_entry_by_id s idv cn odb).1 = (false, s)
        ∧ Event.warn ∈ (delete_entry_by_id s idv cn odb).2)
    ∧ (∀ ref, (get_collection_by_name s cn odb).1 = some ref →
        (∀ d ∈ getCollDocs s ref, ¬ dget d "_id" = some idv) →
        (delete_entry_by_id s idv cn odb).1 = (false, s)
        ∧ Event.warn ∈ (delete_entry_by_id s idv cn odb).2)
    ∧ ((get_collection_by_name s cn odb).1 = none →
        (delete_collection s cn odb).1 = (false, s)
        ∧ Event.warn ∈ (delete_collection s cn odb).2)
    ∧ ((get_collection_by_name s cn odb).1 = none →
        (get_most_recent_entry s cn odb).1 = none
        ∧ Event.warn ∈ (get_most_recent_entry s cn odb).2)
    ∧ (∀ ref, (get_collection_by_name s cn odb).1 = some ref →
        getCollDocs s ref = [] →
        (get_most_recent_entry s cn odb).1 = none
        ∧ Event.warn ∈ (get_most_recent_entry s cn odb).2)
    ∧ (database_exists s dbn = false →
        collection_exists s cn (some dbn) = (false, [Event.warn, Event.warn]))
    ∧ (database_exists s dbn = true → cn ∉ listCollectionNames s dbn →
        collection_exists s cn (some dbn) = (false, [Event.warn]))
    ∧ ((∀ n ∈ listDatabaseNames s, cn ∉ listCollectionNames s n) →
        collection_exists s cn none = (false, [])) := by
  refine ⟨?_, ?_, ?_, ?_, ?_, ?_, ?_, ?_, ?_, ?_, ?_, ?_, ?_⟩
  · intro h
    simp [get_database_by_name, h]
  · exact gcbn_none_warn s cn odb
  · intro h
    rcases hp : get_collection_by_name s cn odb with ⟨r, ev⟩
    rw [hp] at h
    simp at h
    subst h
    simp [get_entry_by_id, hp]
  · intro h
    obtain ⟨h1, h2, _⟩ := get_entry_invalid_id_aux s cn odb sid h
    exact ⟨h1, h2⟩
  · intro ref h hns hnf
    rcases hp : get_collection_by_name s cn odb with ⟨r, ev⟩
    rw [hp] at h
    simp at h
    subst h
    have hnw : Event.warn ∉ ev := by
      have hw := gcbn_some_no_warn s cn odb ref (by rw [hp])
      rw [hp] at hw
      exact hw
    rw [get_entry_not_found_aux s cn odb idv ref ev hp hns
      (find_one_by_id_none _ _ hnf)]
    refine ⟨rfl, by simp, ?_⟩
    intro hc
    rcases List.mem_append.mp hc with hc | hc
    · exact hnw hc
    · simp at hc
  · intro h
    rcases hp : get_collection_by_name s cn odb with ⟨r, ev⟩
    rw [hp] at h
    simp at h
    subst h
    simp [delete_entry_by_id, hp]
  · intro ref h hnf
    rcases hp : get_collection_by_name s cn odb with ⟨r, ev⟩
    rw [hp] at h
    simp at h
    subst h
    have hz : (deleteFirstById (getCollDocs s ref) idv).2 = 0 :=
      deleteFirstById_count_zero _ _ hnf
    simp [delete_entry_by_id, hp, hz]
  · intro h
    rcases hp : get_collection_by_name s cn odb with ⟨r, ev⟩
    rw [hp] at h
    simp at h
    subst h
    simp [delete_collection, hp]
  · intro h
    rcases hp : get_collection_by_name s cn odb with ⟨r, ev⟩
    rw [hp] at h
    simp at h
    subst h
    simp [get_most_recent_entry, hp]
  · intro ref h hnil
    rcases hp : get_collection_by_name s cn odb with ⟨r, ev⟩
    rw [hp] at h
    simp at h
    subst h
    simp [get_most_recent_entry, hp, hnil, maxIdDoc]
  · intro h
    simp [collection_exists, get_database_by_name, h]
  · intro h1 h2
    simp [collection_exists, get_database_by_name, h1, h2]
  · intro h
    have hx : existsInDbs s cn (listDatabaseNames s) = false := by
      rw [← Bool.not_eq_true, existsInDbs_iff]
      rintro ⟨n, hn, hc⟩
      exact h n hn hc
    simp [collection_exists, hx]

/-- A server with one empty collection, for the empty-collection scenario. -/
def sEmptyColl : Server := [("dE", [("cE", [])])]

/-- Witness for C2 (amended): every failure scenario of the theorem at a
concrete input. -/
theorem failing_ops_warn_and_return_empty_witness :
    get_database_by_name sW "nope" = (none, [Event.warn])
    ∧ Event.warn ∈ (get_collection_by_name sW "nocoll" (some "d1")).2
    ∧ (get_entry_by_id sW (Val.oid 9) (some "nocoll") (some "d1")).1 = none
    ∧ (get_entry_by_id sW (Val.str "zz") (some "nocoll") (some "d1")).1 = none
    ∧ (get_entry_by_id sW (Val.oid 9) (some "c1") (some "d1")).1 = none
    ∧ Event.info ∈ (get_entry_by_id sW (Val.oid 9) (some "c1") (some "d1")).2
    ∧ (delete_entry_by_id sW (Val.oid 9) "nocoll" (some "d1")).1 = (false, sW)
    ∧ (delete_entry_by_id sW (Val.oid 9) "c1" (some "d1")).1 = (false, sW)
    ∧ (delete_collection sW "nocoll" (some "d1")).1 = (false, sW)
    ∧ (get_most_recent_entry sW "nocoll" (some "d1")).1 = none
    ∧ (get_most_recent_entry sEmptyColl "cE" (some "dE")).1 = none
    ∧ collection_exists sW "nocoll" (some "nope") = (false, [Event.warn, Event.warn])
    ∧ collection_exists sW "nocoll" (some "d1") = (false, [Event.warn])
    ∧ collection_exists sW "nocoll" none = (false, []) := by
  obtain ⟨a1, a2, a3, a4, -, a6, -, a8, a9, -, a11, a12, a13⟩ :=
    failing_ops_warn_and_return_empty sW "nope" "nocoll" (some "d1") "zz" (Val.oid 9)
  obtain ⟨-, -, -, -, b5, -, b7, -, -, -, -, -, -⟩ :=
    failing_ops_warn_and_return_empty sW "d1" "c1" (some "d1") "zz" (Val.oid 9)
  obtain ⟨-, -, -, -, -, -, -, -, -, -, -, c12, -⟩ :=
    failing_ops_warn_and_return_empty sW "d1" "nocoll" (some "d1") "zz" (Val.oid 9)
  obtain ⟨-, -, -, -, -, -, -, -, -, d10, -, -, -⟩ :=
    failing_ops_warn_and_return_empty sEmptyColl "dE" "cE" (some "dE") "zz" (Val.oid 9)
  have h5 := b5 ⟨"d1", "c1"⟩ rfl (fun t h => Val.noConfusion h) (by decide)
  refine ⟨a1 (by decide), a2 (by decide), (a3 (by decide)).1, (a4 (by decide)).1,
    h5.1, h5.2.1, (a6 (by decide)).1,
    (b7 ⟨"d1", "c1"⟩ rfl (by decide)).1, (a8 (by decide)).1, (a9 (by decide)).1,
    (d10 ⟨"dE", "cE"⟩ rfl (by decide)).1, a11 (by decide),
    c12 (by decide) (by decide), a13 (by decide)⟩

/-- C3 counterexample: a collection that exists only in the `config` database
is on the server, yet the all-databases search of `get_collection_by_name`
returns `None`. -/
def sCfg : Server := [("config", [("c", [[]])])]

/-- C3 counterexample theorem. -/
theorem gcbn_misses_config_only_collection :
    "config" ∈ listDatabaseNames sCfg
    ∧ "c" ∈ listCollectionNames sCfg "config"
    ∧ (get_collection_by_name sCfg "c" none).1 = none :=
  ⟨by decide, by decide, rfl⟩

/-- C3 (amended): when called without a database name, `get_collection_by_name`
iterates every database on the server except `config` and `local`, returning
the collection from the first database whose collection names contain the
requested name; it returns `None` exactly when no database other than
`config` and `local` contains a collection of that name. -/
theorem gcbn_scan_excludes_config_local (s : Server) (cn : CollName) :
    ((get_collection_by_name s cn none).1 = none ↔
      ∀ n ∈ listDatabaseNames s, n ∉ excludedDbNames → cn ∉ listCollectionNames s n)
    ∧ ∀ ref, (get_collection_by_name s cn none).1 = some ref →
        ref.coll = cn ∧ ref.db ∈ listDatabaseNames s ∧ ref.db ∉ excludedDbNames
          ∧ cn ∈ listCollectionNames s ref.db :=
  ⟨gcbn_none_eq_none_iff s cn, fun ref h => gcbn_none_some s cn ref h⟩

/-- A server where the requested collection lives in a regular database. -/
def sSearch : Server :=
  [("config", [("c3", [[]])]), ("dbA", [("c3", [[("k", Val.num 1)]])])]

/-- Witness for C3 (amended) at a concrete server. -/
theorem gcbn_scan_excludes_config_local_witness :
    (get_collection_by_name sSearch "c3" none).1 = some ⟨"dbA", "c3"⟩
    ∧ "dbA" ∈ listDatabaseNames sSearch
    ∧ "dbA" ∉ excludedDbNames
    ∧ "c3" ∈ listCollectionNames sSearch "dbA" := by
  have h := (gcbn_scan_excludes_config_local sSearch "c3").2 ⟨"dbA", "c3"⟩ rfl
  exact ⟨rfl, h.2.1, h.2.2.1, h.2.2.2⟩

/-- C4: `get_most_recent_entry` returns `None` when the collection cannot be
resolved or is empty, and otherwise a document of the collection whose `_id`
is largest. -/
theorem get_most_recent_entry_returns_max_id (s : Server) (cn : CollName)
    (odb : Option DbName) :
    ((get_collection_by_name s cn odb).1 = none →
      (get_most_recent_entry s cn odb).1 = none)
    ∧ ∀ ref, (get_collection_by_name s cn odb).1 = some ref →
        (getCollDocs s ref = [] → (get_most_recent_entry s cn odb).1 = none)
        ∧ (getCollDocs s ref ≠ [] →
            ∃ d, (get_most_recent_entry s cn odb).1 = some d
              ∧ d ∈ getCollDocs s ref
              ∧ ((∀ d' ∈ getCollDocs s ref, (docIdN d').isSome) →
                  ∃ n, docIdN d = some n
                    ∧ ∀ d' ∈ getCollDocs s ref, ∀ n', docIdN d' = some n' → n' ≤ n)) := by
  rcases hp : get_collection_by_name s cn odb with ⟨r, ev⟩
  constructor
  · intro h
    simp at h
    subst h
    simp [get_most_recent_entry, hp]
  · intro ref h
    simp at h
    subst h
    constructor
    · intro hnil
      simp [get_most_recent_entry, hp, hnil, maxIdDoc]
    · intro hne
      obtain ⟨d, hd⟩ := maxIdDoc_isSome _ hne
      refine ⟨d, ?_, maxIdDoc_mem _ _ hd, ?_⟩
      · simp [get_most_recent_entry, hp, hd]
      · intro hids
        obtain ⟨n, hn⟩ := Option.isSome_iff_exists.mp (hids d (maxIdDoc_mem _ _ hd))
        refine ⟨n, hn, ?_⟩
        intro d' hd' n' hn'
        have := maxIdDoc_max _ _ hd d' hd'
        rwa [idKey, idKey, hn, hn', Option.getD_some, Option.getD_some] at this

/-- The collection used to witness C4. -/
def sRecent : Server :=
  [("dR", [("cR", [[("_id", Val.oid 2)], [("_id", Val.oid 5)], [("_id", Val.oid 3)]])])]

/-- Witness for C4: on a three-document collection the entry with `_id = 5`
is returned. -/
theorem get_most_recent_entry_returns_max_id_witness :
    (get_most_recent_entry sRecent "cR" (some "dR")).1 = some [("_id", Val.oid 5)]
    ∧ [("_id", Val.oid 5)] ∈ getCollDocs sRecent ⟨"dR", "cR"⟩ := by
  obtain ⟨d, h1, h2, -⟩ :=
    ((get_most_recent_entry_returns_max_id sRecent "cR" (some "dR")).2
      ⟨"dR", "cR"⟩ rfl).2 (by decide)
  have hd : d = [("_id", Val.oid 5)] := by
    have h5 : (get_most_recent_entry sRecent "cR" (some "dR")).1
        = some [("_id", Val.oid 5)] := rfl
    exact Option.some.inj (h1.symm.trans h5)
  exact ⟨hd ▸ h1, hd ▸ h2⟩

/-- C5: a string id that `bson.ObjectId` rejects makes `get_entry_by_id` log a
warning and return `None`, and no find is issued against any collection. -/
theorem get_entry_by_id_rejects_invalid_id (s : Server) (cn : CollName)
    (odb : Option DbName) (sid : String) (h : isValidOidStr sid = false) :
    (get_entry_by_id s (.str sid) (some cn) odb).1 = none
    ∧ Event.warn ∈ (get_entry_by_id s (.str sid) (some cn) odb).2
    ∧ ∀ c, Event.findEv c ∉ (get_entry_by_id s (.str sid) (some cn) odb).2 :=
  get_entry_invalid_id_aux s cn odb sid h

/-- Witness for C5: the string `"zz"` is not a valid ObjectId encoding. -/
theorem get_entry_by_id_rejects_invalid_id_witness :
    isValidOidStr "zz" = false
    ∧ (get_entry_by_id sW (.str "zz") (some "c1") (some "d1")).1 = none
    ∧ Event.warn ∈ (get_entry_by_id sW (.str "zz") (some "c1") (some "d1")).2 := by
  have h := get_entry_by_id_rejects_invalid_id sW "c1" (some "d1") "zz" (by decide)
  exact ⟨by decide, h.1, h.2.1⟩

/-- The target collection of the C6 counterexample, initially empty. -/
def sIns : Server := [("d6", [("c6", [])])]

/-- C6 counterexample: a document inserted by `create_entry` under the string
id `"zz"` is stored, `create_entry` returns that id, yet `get_entry_by_id`
with this returned id yields `None`, because it first converts the string
through `bson.ObjectId`, which rejects it. -/
theorem create_then_get_string_id_counterexample :
    (create_entry sIns [("_id", Val.str "zz")] "c6" "d6" 7).1.1 = Val.str "zz"
    ∧ [("_id", Val.str "zz")]
      ∈ getCollDocs (create_entry sIns [("_id", Val.str "zz")] "c6" "d6" 7).2 ⟨"d6", "c6"⟩
    ∧ (get_entry_by_id (create_entry sIns [("_id", Val.str "zz")] "c6" "d6" 7).2
        (Val.str "zz") (some "c6") (some "d6")).1 = none :=
  ⟨rfl, by decide, rfl⟩

/-- C6 (amended): when the identifier under which `create_entry` stores the
document is an ObjectId (generated, or supplied in the data) that is fresh for
the target collection, a subsequent `get_entry_by_id` with the identifier
returned by `create_entry`, on the same collection and database, returns the
document exactly as stored. -/
theorem create_then_get_roundtrip (s : Server) (data : Doc) (cn : CollName)
    (dbn : DbName) (newId i : Nat)
    (hid : insertedIdOf data newId = Val.oid i)
    (hfresh : ∀ d ∈ getCollDocs s ⟨dbn, cn⟩, ¬ dget d "_id" = some (Val.oid i)) :
    (get_entry_by_id (create_entry s data cn dbn newId).2 (Val.oid i)
      (some cn) (some dbn)).1 = some (insertOneDoc data newId) := by
  have hs' : (create_entry s data cn dbn newId).2
      = serverInsert s dbn cn (insertOneDoc data newId) := rfl
  have hsid : dget (insertOneDoc data newId) "_id" = some (Val.oid i) := by
    rcases hq : dget data "_id" with _ | v
    · have hni : i = newId := by
        rw [insertedIdOf, hq] at hid
        exact Val.oid.inj hid.symm
      rw [insertOneDoc, hq]
      simp only [Option.isSome_none, Bool.false_eq_true, if_false]
      rw [dget_append_right data _ _ hq, hni]
      rfl
    · have hv : v = Val.oid i := by
        rw [insertedIdOf, hq] at hid
        exact hid
      rw [insertOneDoc, hq]
      simp [hv, hq]
  have hgc : (get_collection_by_name (serverInsert s dbn cn (insertOneDoc data newId))
      cn (some dbn)).1 = some ⟨dbn, cn⟩ :=
    gcbn_some_found _ cn dbn (serverInsert_db_exists s dbn cn _)
      (serverInsert_coll_mem s dbn cn _)
  rw [hs']
  rcases hp : get_collection_by_name (serverInsert s dbn cn (insertOneDoc data newId))
      cn (some dbn) with ⟨r, ev⟩
  rw [hp] at hgc
  simp at hgc
  subst hgc
  have hfind : find_one_by_id
      (getCollDocs (serverInsert s dbn cn (insertOneDoc data newId)) ⟨dbn, cn⟩)
      (Val.oid i) = some (insertOneDoc data newId) := by
    rw [getCollDocs_serverInsert]
    exact find_one_append_fresh _ _ _ hfresh hsid
  simp [get_entry_by_id, hp, hfind]

/-- Witness for C6 (amended): insert into an empty server with generated id 5
and read the document back. -/
theorem create_then_get_roundtrip_witness :
    insertedIdOf [("x", Val.num 1)] 5 = Val.oid 5
    ∧ (get_entry_by_id (create_entry ([] : Server) [("x", Val.num 1)] "c" "d" 5).2
        (Val.oid 5) (some "c") (some "d")).1
      = some [("x", Val.num 1), ("_id", Val.oid 5)] := by
  have h := create_then_get_roundtrip ([] : Server) [("x", Val.num 1)] "c" "d" 5 5
    rfl (by simp [getCollDocs, getDbColls, dget])
  exact ⟨rfl, h⟩

/-- C7: on a two-element `[lo, hi]`, `query_get_entries_with_value_range`
returns the query dict (fresh when `None` was passed) with `key` mapped to
the inclusive range filter and every other key unchanged. -/
theorem value_range_sets_inclusive_bounds (key : String) (lo hi : Val)
    (query : Option Query) :
    query_get_entries_with_value_range key [lo, hi] query
      = .ok (dset (query.getD []) key
          (.obj [("$gte", .prim lo), ("$lte", .prim hi)]))
    ∧ dget (dset (query.getD []) key
          (.obj [("$gte", .prim lo), ("$lte", .prim hi)])) key
      = some (.obj [("$gte", .prim lo), ("$lte", .prim hi)])
    ∧ ∀ k', k' ≠ key →
        dget (dset (query.getD []) key
            (.obj [("$gte", .prim lo), ("$lte", .prim hi)])) k'
          = dget (query.getD []) k' :=
  ⟨rfl, dget_dset_self _ _ _, fun k' h => dget_dset_ne _ _ _ _ h⟩

/-- Witness for C7 at concrete inputs, also checking an unrelated key. -/
theorem value_range_sets_inclusive_bounds_witness :
    query_get_entries_with_value_range "a" [Val.num 0, Val.num 2]
        (some [("b", QVal.prim (Val.num 9))])
      = .ok (dset [("b", QVal.prim (Val.num 9))] "a"
          (.obj [("$gte", .prim (.num 0)), ("$lte", .prim (.num 2))]))
    ∧ dget (dset [("b", QVal.prim (Val.num 9))] "a"
          (.obj [("$gte", .prim (.num 0)), ("$lte", .prim (.num 2))])) "b"
      = dget [("b", QVal.prim (Val.num 9))] "b" := by
  have h := value_range_sets_inclusive_bounds "a" (Val.num 0) (Val.num 2)
    (some [("b", QVal.prim (Val.num 9))])
  exact ⟨h.1, h.2.2 "b" (by decide)⟩

/-- C8: with well-typed, convertible ids, `query_get_entries_by_ids` called
with the default `query=None` raises `TypeError` at the `query["_id"]`
assignment, while every other query-fragment builder creates a fresh dict
when `query` is `None`. -/
theorem query_by_ids_raises_on_default_query (ids : List Val)
    (h : ∀ v ∈ ids, (∃ t, v = Val.str t ∧ isValidOidStr t = true)
        ∨ ∃ n, v = Val.oid n) :
    query_get_entries_by_ids ids none = .error .typeError
    ∧ (∀ k v, query_get_entries_with_value k v none = [(k, QVal.prim v)])
    ∧ (∀ k, query_get_entries_where_key_exists k none
        = .ok [(k, QVal.obj [("$exists", QVal.prim (Val.bool true))])])
    ∧ (∀ k, query_get_entries_where_key_not_exists k none
        = .ok [(k, QVal.obj [("$exists", QVal.prim (Val.bool false))])])
    ∧ (∀ k lo hi, query_get_entries_with_value_range k [lo, hi] none
        = .ok [(k, QVal.obj [("$gte", QVal.prim lo), ("$lte", QVal.prim hi)])]) := by
  refine ⟨?_, ?_, ?_, ?_, ?_⟩
  · obtain ⟨l, hl⟩ := convertIds_ok ids h
    simp [query_get_entries_by_ids, hl]
  · intro k v
    rfl
  · intro k
    simp [query_get_entries_where_key_exists, setExistsFlag, dget, dset]
  · intro k
    simp [query_get_entries_where_key_not_exists, setExistsFlag, dget, dset]
  · intro k lo hi
    rfl

/-- Witness for C8 with a one-element id list. -/
theorem query_by_ids_raises_on_default_query_witness :
    query_get_entries_by_ids [Val.oid 3] none = .error .typeError
    ∧ query_get_entries_with_value "k" (Val.num 1) none
      = [("k", QVal.prim (Val.num 1))] := by
  have h := query_by_ids_raises_on_default_query [Val.oid 3] (by
    intro v hv
    simp at hv
    subst hv
    exact Or.inr ⟨3, rfl⟩)
  exact ⟨h.1, h.2.1 "k" (Val.num 1)⟩

/-- C9: when no database name is given, `collection_exists` scans every
database while `get_collection_by_name` skips `config` and `local`; a
collection living only in those system databases is reported as existing but
cannot be retrieved. -/
theorem collection_exists_but_gcbn_misses (s : Server) (cn : CollName)
    (h1 : ∃ n ∈ listDatabaseNames s, n ∈ excludedDbNames
        ∧ cn ∈ listCollectionNames s n)
    (h2 : ∀ n ∈ listDatabaseNames s, n ∉ excludedDbNames →
        cn ∉ listCollectionNames s n) :
    (collection_exists s cn none).1 = true
    ∧ (get_collection_by_name s cn none).1 = none := by
  constructor
  · have hx : existsInDbs s cn (listDatabaseNames s) = true := by
      obtain ⟨n, hn, _, hc⟩ := h1
      exact (existsInDbs_iff s cn _).mpr ⟨n, hn, hc⟩
    simp [collection_exists, hx]
  · exact (gcbn_none_eq_none_iff s cn).mpr h2

/-- A server whose collection `c9` exists only in the `local` database. -/
def sSys : Server := [("local", [("c9", [[]])]), ("dA", [("other", [])])]

/-- Witness for C9 at a concrete server. -/
theorem collection_exists_but_gcbn_misses_witness :
    (collection_exists sSys "c9" none).1 = true
    ∧ (get_collection_by_name sSys "c9" none).1 = none :=
  collection_exists_but_gcbn_misses sSys "c9" (by decide) (by decide)

/-- C10: with `"_id"` present in the data, `create_or_update_entry` returns
the driver's `upserted_id`: `None` when a document with that id existed and
was updated, and the supplied id exactly when the upsert inserted a new
document. -/
theorem create_or_update_upserted_id (s : Server) (data : Doc) (cn : CollName)
    (dbn : DbName) (newId : Nat) (idv : Val)
    (hid : dget data "_id" = some idv) :
    ((∃ d ∈ getCollDocs s ⟨dbn, cn⟩, dget d "_id" = some idv) →
      (create_or_update_entry s data cn dbn newId).1.1 = none
      ∧ (create_or_update_entry s data cn dbn newId).2
        = serverSetColl s dbn cn
            (updateFirstById (getCollDocs s ⟨dbn, cn⟩) idv data).1)
    ∧ ((∀ d ∈ getCollDocs s ⟨dbn, cn⟩, ¬ dget d "_id" = some idv) →
      (create_or_update_entry s data cn dbn newId).1.1 = some idv
      ∧ (create_or_update_entry s data cn dbn newId).2
        = serverInsert s dbn cn data) := by
  constructor
  · intro hex
    have hm : (updateFirstById (getCollDocs s ⟨dbn, cn⟩) idv data).2 = true :=
      (updateFirstById_flag _ _ _).mpr hex
    rw [create_or_update_entry, hid]
    simp [hm]
  · intro hnex
    have hm : (updateFirstById (getCollDocs s ⟨dbn, cn⟩) idv data).2 = false := by
      rw [← Bool.not_eq_true]
      intro hc
      obtain ⟨d, hd1, hd2⟩ := (updateFirstById_flag _ _ _).mp hc
      exact hnex d hd1 hd2
    rw [create_or_update_entry, hid]
    simp [hm]

/-- A one-document collection used to witness C10. -/
def sUp : Server := [("dU", [("cU", [[("_id", Val.oid 1), ("v", Val.num 0)]])])]

/-- Witness for C10: an update of the existing id 1 reports `None`, an upsert
under the fresh id 2 reports that id. -/
theorem create_or_update_upserted_id_witness :
    (create_or_update_entry sUp [("_id", Val.oid 1), ("v", Val.num 2)]
        "cU" "dU" 9).1.1 = none
    ∧ (create_or_update_entry sUp [("_id", Val.oid 2), ("v", Val.num 2)]
        "cU" "dU" 9).1.1 = some (Val.oid 2) := by
  constructor
  · exact ((create_or_update_upserted_id sUp [("_id", Val.oid 1), ("v", Val.num 2)]
      "cU" "dU" 9 (Val.oid 1) rfl).1 (by decide)).1
  · exact ((create_or_update_upserted_id sUp [("_id", Val.oid 2), ("v", Val.num 2)]
      "cU" "dU" 9 (Val.oid 2) rfl).2 (by decide)).1

end PymongoExpress
